import Mathlib

/-!
Verification of the EASUN inverter add-on's protocol codec and phase
aggregation engine: a shallow embedding of `protocol_helpers.py`
(`crc_pi`), the pure parsing parts of `inverter.py` (`parse_qpigs`, the
QPIGS2 block of `read_snapshot`, `query_qmod`, `query_q1`,
`query_qpiri`), and the per-cycle phase aggregation of `main.py`.

Python byte strings are `List Nat` with entries below 256; Python
strings are Lean `String`; Python dicts produced by the decoders are
insertion-ordered association lists (`FieldRecord`).  Python `float` and
`int` parsing is modelled on the decimal-literal grammar
`sign? (digits [. digits?] | . digits) ([eE] sign? digits)?` (non-finite
literals such as `inf`/`nan` and digit-group underscores are outside the
model; the inverter responses are plain decimal ASCII).
-/

namespace Easun

/-- A value bound in a decoded field record: Python int, float (exact
rational), str, bool, or `None`. -/
inductive Value where
  | int (i : Int)
  | float (q : Rat)
  | str (s : String)
  | bool (b : Bool)
  | none
deriving DecidableEq, Repr

/-- Insertion-ordered mapping from field keys to values, the shape of the
dicts returned by the decoders. -/
abbrev FieldRecord := List (String × Value)

/-! ## String plumbing (structural, so that terms evaluate in the kernel) -/

/-- Python's notion of whitespace for `str.strip()`. -/
def isPySpace (c : Char) : Bool :=
  c = ' ' || c = '\t' || c = '\n' || c = '\x0d' || c = '\x0b' || c = '\x0c'

/-- `str.strip()`: drop whitespace from both ends. -/
def pyStrip (cs : List Char) : List Char :=
  ((cs.dropWhile isPySpace).reverse.dropWhile isPySpace).reverse

/-- `str.split(sep)` for a one-character separator: adjacent separators
produce empty fragments, exactly as in Python. -/
def splitChar (sep : Char) : List Char → List (List Char)
  | [] => [[]]
  | c :: rest =>
    if c = sep then [] :: splitChar sep rest
    else
      match splitChar sep rest with
      | [] => [[c]]
      | g :: gs => (c :: g) :: gs

/-! ## Python numeric parsing model -/

/-- Consume an optional leading sign, returning the sign as `1` or `-1`. -/
def splitSign : List Char → Int × List Char
  | '+' :: cs => (1, cs)
  | '-' :: cs => (-1, cs)
  | cs => (1, cs)

/-- Split off a maximal run of leading decimal digits. -/
def takeDigits (cs : List Char) : List Char × List Char :=
  (cs.takeWhile Char.isDigit, cs.dropWhile Char.isDigit)

/-- Numeric value of a digit run. -/
def digitsToNat (ds : List Char) : Nat :=
  ds.foldl (fun a c => a * 10 + (c.toNat - 48)) 0

/-- Optional exponent part `([eE] sign? digits)?` applied to a mantissa. -/
def applyExp (q : Rat) : List Char → Option Rat
  | [] => some q
  | c :: cs =>
    if c = 'e' ∨ c = 'E' then
      let (es, cs1) := splitSign cs
      let (eds, cs2) := takeDigits cs1
      if eds.isEmpty ∨ ¬ cs2.isEmpty then Option.none
      else
        let e := digitsToNat eds
        some (if es = 1 then q * (10 : Rat) ^ e else q / (10 : Rat) ^ e)
    else Option.none

/-- Model of Python `float(s)` (finite decimal literals, surrounding
whitespace stripped as Python does). -/
def pyFloat (s : String) : Option Rat :=
  let cs := pyStrip s.data
  let (sgn, cs1) := splitSign cs
  let (ip, cs2) := takeDigits cs1
  match cs2 with
  | '.' :: cs3 =>
    let (fp, cs4) := takeDigits cs3
    if ip.isEmpty ∧ fp.isEmpty then Option.none
    else
      let mant : Rat := (digitsToNat ip : Rat) + (digitsToNat fp : Rat) / (10 : Rat) ^ fp.length
      (applyExp mant cs4).map (fun q => sgn * q)
  | rest =>
    if ip.isEmpty then Option.none
    else (applyExp (digitsToNat ip : Rat) rest).map (fun q => sgn * q)

/-- Model of Python `int(s)` in base 10 (sign + nonempty digit run,
surrounding whitespace stripped). -/
def pyInt (s : String) : Option Int :=
  let cs := pyStrip s.data
  let (sgn, cs1) := splitSign cs
  let (ds, rest) := takeDigits cs1
  if ds.isEmpty ∨ ¬ rest.isEmpty then Option.none else some (sgn * digitsToNat ds)

/-- Truncation toward zero, the behaviour of Python `int(float_value)`. -/
def ratTrunc (q : Rat) : Int :=
  if 0 ≤ q then q.floor else -((-q).floor)

/-- `re.sub(r"[^0-9+\-.]", "", tok)`: keep only digits, sign and dot. -/
def sanitize (s : String) : String :=
  ⟨s.data.filter (fun c => c.isDigit || c = '+' || c = '-' || c = '.')⟩

/-- `re.sub(r"[^0-9]", "", tok)`: keep only digits. -/
def digitsOnly (s : String) : String :=
  ⟨s.data.filter Char.isDigit⟩

/-! ## Checksum codec (`protocol_helpers.crc_pi`) -/

/-- The 16-entry half-nibble CRC table `crc_ta`. -/
def crc_ta : List Nat :=
  [0x0000, 0x1021, 0x2042, 0x3063,
   0x4084, 0x50A5, 0x60C6, 0x70E7,
   0x8108, 0x9129, 0xA14A, 0xB16B,
   0xC18C, 0xD1AD, 0xE1CE, 0xF1EF]

/-- One 4-bit step of the CRC loop body: shift the running CRC left a
nibble (mod 2^16) and fold in one input nibble through the table. -/
def crcHalf (crc : Nat) (nib : Nat) : Nat :=
  let da := ((crc >>> 8) &&& 0xFF) >>> 4
  let crc1 := (crc <<< 4) &&& 0xFFFF
  crc1 ^^^ crc_ta.getD (da ^^^ nib) 0

/-- Process one input byte: its high nibble, then its low nibble.
(The `isinstance(c, str)` branch of the source is dead for byte input.) -/
def crcByte (crc : Nat) (c : Nat) : Nat :=
  crcHalf (crcHalf crc (c >>> 4)) (c &&& 0x0F)

/-- The raw 16-bit table CRC of a byte string. -/
def crcRun (data : List Nat) : Nat := data.foldl crcByte 0

/-- The reserved-byte adjustment: `(`, CR, LF and NUL are bumped by one. -/
def adjustByte (b : Nat) : Nat :=
  if b = 0x28 ∨ b = 0x0D ∨ b = 0x0A ∨ b = 0x00 then b + 1 else b

/-- `crc_pi(data_bytes)`: `(crc_high, crc_low)` after adjustment. -/
def crc_pi (data : List Nat) : Nat × Nat :=
  let crc := crcRun data
  (adjustByte ((crc >>> 8) &&& 0xFF), adjustByte (crc &&& 0xFF))

/-! ## Response tokenization -/

/-- Payload extraction shared by `query_q1`, `query_qpiri` and the QPIGS2
block: inside the parentheses when the line opens with `(`, else the
whole line. -/
def extractPayload (line : String) : String :=
  if line.data.head? = some '(' then
    if line.data.contains ')' then ⟨(line.data.drop 1).takeWhile (fun c => c ≠ ')')⟩
    else ⟨line.data.drop 1⟩
  else line

/-- `payload.strip().split(' ')` with empty fragments discarded. -/
def splitTokens (payload : String) : List String :=
  ((splitChar ' ' (pyStrip payload.data)).map (fun cs => (⟨cs⟩ : String))).filter
    (fun t => t ≠ "")

/-- Tokens of a response line for the Q1/QPIRI/QPIGS2 style of payload
extraction. -/
def tokenize (line : String) : List String :=
  splitTokens (extractPayload line)

/-! ## Generic positional decode (`parse_qpigs` main loop) -/

/-- The numeric kind declared for a schema position. -/
inductive Kind where
  | intK
  | floatK
  | strK
deriving DecidableEq, Repr

/-- Parse one token under its declared kind: `int(tok)`, `float(tok)`,
or the raw string for packed status fields. -/
def parseKind : Kind → String → Option Value
  | .strK, s => some (.str s)
  | .intK, s => (pyInt s).map .int
  | .floatK, s => (pyFloat s).map .float

/-- The `for i, key in enumerate(field_keys)` loop of `parse_qpigs`:
walk keys and tokens in lockstep, stop when tokens run out, skip a key
whose token fails to parse. -/
def decodeLoop : List (String × Kind) → List String → FieldRecord
  | [], _ => []
  | _ :: _, [] => []
  | (k, kind) :: schema, p :: parts =>
    match parseKind kind p with
    | some v => (k, v) :: decodeLoop schema parts
    | Option.none => decodeLoop schema parts

/-- The PI30 QPIGS layout: `field_keys` of `parse_qpigs` with each key's
declared kind (the int-cast set of the source's `try` branch; the two
packed status fields stay raw strings). -/
def qpigsSchema : List (String × Kind) :=
  [("ac_input_voltage_v", .floatK),
   ("ac_input_frequency_hz", .floatK),
   ("ac_output_voltage_v", .floatK),
   ("ac_output_frequency_hz", .floatK),
   ("ac_output_apparent_power_va", .intK),
   ("ac_output_active_power_w", .intK),
   ("ac_output_load_percent", .intK),
   ("bus_voltage_v", .intK),
   ("battery_voltage_v", .floatK),
   ("battery_charging_current_a", .intK),
   ("battery_capacity_percent", .intK),
   ("inverter_heatsink_temp_c", .intK),
   ("pv_input_current_a", .floatK),
   ("pv_input_voltage_v", .floatK),
   ("battery_voltage_scc_v", .floatK),
   ("battery_discharge_current_a", .intK),
   ("device_status_bits", .strK),
   ("rsv1", .intK),
   ("rsv2", .intK),
   ("pv_input_power_w", .intK),
   ("device_status2_bits", .strK)]

/-- `str(data.get(key, ''))` for a status field; when bound at all, the
key holds a `.str` (it is declared `strK`), so other shapes cannot occur. -/
def lookupStr (data : FieldRecord) (k : String) : String :=
  match data.lookup k with
  | some (.str s) => s
  | some _ => ""
  | Option.none => ""

/-- Derived booleans from the 8-character packed status field. -/
def statusFlags8 (bits : String) : FieldRecord :=
  if bits.length = 8 ∧ bits.data.all Char.isDigit then
    [("status_sbu_priority_added", .bool (bits.data.getD 0 ' ' = '1')),
     ("status_configuration_changed", .bool (bits.data.getD 1 ' ' = '1')),
     ("status_scc_fw_updated", .bool (bits.data.getD 2 ' ' = '1')),
     ("status_load_on", .bool (bits.data.getD 3 ' ' = '1')),
     ("status_batt_steady_while_charging", .bool (bits.data.getD 4 ' ' = '1')),
     ("status_charging_on", .bool (bits.data.getD 5 ' ' = '1')),
     ("status_scc_charging_on", .bool (bits.data.getD 6 ' ' = '1')),
     ("status_ac_charging_on", .bool (bits.data.getD 7 ' ' = '1'))]
  else []

/-- Derived booleans from the 3-character packed status field. -/
def statusFlags3 (bits : String) : FieldRecord :=
  if bits.length = 3 ∧ bits.data.all Char.isDigit then
    [("status_charging_to_float", .bool (bits.data.getD 0 ' ' = '1')),
     ("status_switched_on", .bool (bits.data.getD 1 ' ' = '1'))]
  else []

/-- The sanitized token list `parts` of `parse_qpigs` (note its slightly
different payload handling: strip a leading `(`, then truncate at the
first `)` wherever it sits). -/
def qpigsParts (line : String) : List String :=
  let l1 : String := if line.data.head? = some '(' then ⟨line.data.drop 1⟩ else line
  let l2 : String := if l1.data.contains ')' then ⟨l1.data.takeWhile (fun c => c ≠ ')')⟩ else l1
  (splitTokens l2).map sanitize

/-- The positional part `data` of `parse_qpigs` before the derived
status booleans are appended. -/
def qpigsData (line : String) : FieldRecord :=
  decodeLoop qpigsSchema (qpigsParts line)

/-- `Inverter.parse_qpigs`. -/
def parse_qpigs (line : String) : FieldRecord :=
  if line = "" then []
  else
    qpigsData line
      ++ statusFlags8 (lookupStr (qpigsData line) "device_status_bits")
      ++ statusFlags3 (lookupStr (qpigsData line) "device_status2_bits")

/-! ## QPIGS2 (the PV2 block of `Inverter.read_snapshot`) -/

/-- The sanitized token list of the QPIGS2 branch (which runs only when
the response opens with `(`). -/
def qpigs2Parts (line2 : String) : List String :=
  (tokenize line2).map sanitize

/-- The PV2 fields decoded from a QPIGS2 response line; each of the three
fields has its own `try`, so one failing token skips only that field. -/
def parse_qpigs2 (line2 : String) : FieldRecord :=
  if line2 ≠ "" ∧ line2.data.head? = some '(' then
    if 3 ≤ (qpigs2Parts line2).length then
      (match pyFloat ((qpigs2Parts line2).getD 0 "") with
       | some q => [("pv2_input_current_a", Value.float q)]
       | Option.none => [])
      ++ (match pyFloat ((qpigs2Parts line2).getD 1 "") with
          | some q => [("pv2_input_voltage_v", Value.float q)]
          | Option.none => [])
      ++ (match (pyFloat ((qpigs2Parts line2).getD 2 "")).map ratTrunc with
          | some n => [("pv2_input_power_w", Value.int n)]
          | Option.none => [])
    else []
  else []

/-! ## QMOD (`Inverter.query_qmod`, parsing part) -/

/-- The fixed mode table, defaulting to the raw code (`mode_map.get(code,
code)`). -/
def modeLookup (code : String) : String :=
  if code = "P" then "Power On"
  else if code = "S" then "Standby"
  else if code = "L" then "Line"
  else if code = "B" then "Battery"
  else if code = "F" then "Fault"
  else if code = "H" then "Power Saving"
  else if code = "D" then "Shutdown"
  else if code = "Y" then "Bypass"
  else code

/-- Parsing part of `Inverter.query_qmod`, applied to the response line. -/
def parse_qmod (line : String) : FieldRecord :=
  if line = "" then []
  else
    let code : String :=
      if line.data.head? = some '(' ∧ line.data.contains ')' then
        ⟨(line.data.drop 1).takeWhile (fun c => c ≠ ')')⟩
      else ⟨pyStrip line.data⟩
    [("inverter_mode_code", .str code), ("inverter_mode", .str (modeLookup code))]

/-! ## Q1 (`Inverter.query_q1`, parsing part) -/

/-- `as_int(idx)`: sanitize the token, try `int`, fall back to
`int(float)`, `None` when absent or unparseable. -/
def q1AsInt (tokens : List String) (idx : Nat) : Option Int :=
  if idx < tokens.length then
    let t := sanitize (tokens.getD idx "")
    match pyInt t with
    | some n => some n
    | Option.none => (pyFloat t).map ratTrunc
  else Option.none

/-- `as_float(idx)`. -/
def q1AsFloat (tokens : List String) (idx : Nat) : Option Rat :=
  if idx < tokens.length then pyFloat (sanitize (tokens.getD idx ""))
  else Option.none

/-- The charge-stage table, defaulting to the raw digit string. -/
def chargeLookup (code : String) : String :=
  if code = "10" then "nocharging"
  else if code = "11" then "bulk"
  else if code = "12" then "absorb"
  else if code = "13" then "float"
  else code

/-- Parsing part of `Inverter.query_q1` applied to the response line.
`as_int(i) or 0` is `(q1AsInt tokens i).getD 0`: `None` becomes `0` and a
parsed `0` stays `0`. -/
def parse_q1 (line : String) : FieldRecord :=
  if line = "" then []
  else
    [("scc_pwm_temp_c", .int ((q1AsInt (tokenize line) 5).getD 0)),
     ("inverter_temp_c", .int ((q1AsInt (tokenize line) 6).getD 0)),
     ("battery_temp_c", .int ((q1AsInt (tokenize line) 7).getD 0)),
     ("transformer_temp_c", .int ((q1AsInt (tokenize line) 8).getD 0)),
     ("scc_charge_power_w", .int ((q1AsInt (tokenize line) 13).getD 0))]
    ++ (match q1AsFloat (tokenize line) 15 with
        | some q => [("sync_frequency_hz", Value.float q)]
        | Option.none => [])
    ++ (if 16 < (tokenize line).length then
          [("charge_stage", .str (chargeLookup (digitsOnly ((tokenize line).getD 16 ""))))]
        else [])

/-! ## QPIRI (`Inverter.query_qpiri`, parsing part) -/

/-- `f(i)`: `float(tokens[i])` (no sanitization), bound as `None` when it
raises. -/
def qpiriF (tokens : List String) (i : Nat) : Value :=
  match pyFloat (tokens.getD i "") with
  | some q => .float q
  | Option.none => .none

/-- `iv(i)`: `int(float(tokens[i]))`, bound as `None` when it raises. -/
def qpiriIv (tokens : List String) (i : Nat) : Value :=
  match (pyFloat (tokens.getD i "")).map ratTrunc with
  | some n => .int n
  | Option.none => .none

/-- Parsing part of `Inverter.query_qpiri` applied to the response line. -/
def parse_qpiri (line : String) : FieldRecord :=
  if line = "" then []
  else
    if 12 ≤ (tokenize line).length then
      [("qpiri_ac_input_voltage_v", qpiriF (tokenize line) 0),
       ("qpiri_ac_input_current_a", qpiriF (tokenize line) 1),
       ("qpiri_ac_output_voltage_v", qpiriF (tokenize line) 2),
       ("qpiri_ac_output_frequency_hz", qpiriF (tokenize line) 3),
       ("qpiri_ac_output_current_a", qpiriF (tokenize line) 4),
       ("qpiri_ac_output_apparent_power_va", qpiriIv (tokenize line) 5),
       ("qpiri_ac_output_active_power_w", qpiriIv (tokenize line) 6),
       ("qpiri_battery_voltage_v", qpiriF (tokenize line) 7),
       ("qpiri_battery_recharge_voltage_v", qpiriF (tokenize line) 8),
       ("qpiri_battery_under_voltage_v", qpiriF (tokenize line) 9),
       ("qpiri_battery_bulk_charge_voltage_v", qpiriF (tokenize line) 10),
       ("qpiri_battery_float_charge_voltage_v", qpiriF (tokenize line) 11)]
    else []

/-! ## Phase aggregation (`main.main`, per-cycle aggregator) -/

/-- `int(data.get(key, 0) or 0)`: an absent key, `None`, `0`, `0.0`,
`False` or `''` contributes `0`; ints pass through, floats truncate,
`True` is `1`.  (A non-numeric, non-empty string would raise in Python;
the summed keys are always bound as ints by the decoders, so that case is
unreachable and modelled as its parsed-or-zero value.) -/
def intOr0 : Option Value → Int
  | Option.none => 0
  | some .none => 0
  | some (.int i) => i
  | some (.float q) => ratTrunc q
  | some (.bool b) => if b then 1 else 0
  | some (.str s) => if s = "" then 0 else (pyInt s).getD 0

/-- One device's input to a cycle: its configured phase tag
(`InverterConfig.phase`, `None` or a string) and the `FieldRecord` its
snapshot produced (`{}` when the read failed). -/
abbrev DeviceCycle := Option String × FieldRecord

/-- One iteration of the aggregation loop body: devices whose snapshot
came back empty are skipped (`if data:`); a device with a truthy phase
tag adds it to `phases_present` (a duplicate-free list standing for the
Python set). -/
def aggStep (st : Int × Int × Int × List String) (dev : DeviceCycle) :
    Int × Int × Int × List String :=
  if dev.2 ≠ [] then
    (st.1 + intOr0 (dev.2.lookup "ac_output_active_power_w"),
     st.2.1 + intOr0 (dev.2.lookup "ac_output_apparent_power_va"),
     st.2.2.1 + (intOr0 (dev.2.lookup "pv_input_power_w")
                 + intOr0 (dev.2.lookup "pv2_input_power_w")),
     match dev.1 with
     | some p => if p ≠ "" then st.2.2.2.insert p else st.2.2.2
     | Option.none => st.2.2.2)
  else st

/-- The cycle's accumulators `(agg_active, agg_apparent, agg_pv,
phases_present)`, rebuilt from zero every cycle. -/
def aggFold (devs : List DeviceCycle) : Int × Int × Int × List String :=
  devs.foldl aggStep (0, 0, 0, ([] : List String))

/-- The three-phase tag set `{'L1','L2','L3'}`. -/
def phasesL123 : List String := ["L1", "L2", "L3"]

/-- Lexicographic order on code points, Python's string ordering. -/
def lexLe : List Char → List Char → Bool
  | [], _ => true
  | _ :: _, [] => false
  | a :: as, b :: bs =>
    if a.toNat < b.toNat then true
    else if b.toNat < a.toNat then false
    else lexLe as bs

/-- String comparison used by `sorted(...)`. -/
def strLe (s t : String) : Bool := lexLe s.data t.data

/-- Insert a string into an already sorted list, keeping it sorted. -/
def insertSorted (s : String) : List String → List String
  | [] => [s]
  | t :: ts => if strLe s t then s :: t :: ts else t :: insertSorted s ts

/-- `sorted(...)` on a list of strings (insertion sort). -/
def sortStrings : List String → List String
  | [] => []
  | s :: ss => insertSorted s (sortStrings ss)

/-- `','.join(...)`. -/
def joinComma : List String → String
  | [] => ""
  | [s] => s
  | s :: rest => s ++ "," ++ joinComma rest

/-- The aggregate publication decision and record of `main`: emitted only
when `cfg.group_3phase`, the observed phases cover L1/L2/L3
(`phases_present >= {'L1','L2','L3'}`), and MQTT is connected. -/
def aggregateCycle (group3 connected : Bool) (devs : List DeviceCycle) :
    Option FieldRecord :=
  if group3 && phasesL123.all (fun p => (aggFold devs).2.2.2.contains p) && connected then
    some [("total_active_power_w", .int (aggFold devs).1),
          ("total_apparent_power_va", .int (aggFold devs).2.1),
          ("total_pv_power_w", .int (aggFold devs).2.2.1),
          ("phases", .str (joinComma (sortStrings (aggFold devs).2.2.2)))]
  else Option.none

/-- Spec-side restatement: the records of devices whose snapshot
succeeded this cycle. -/
def contributing (devs : List DeviceCycle) : List FieldRecord :=
  (devs.filter (fun d => !d.2.isEmpty)).map Prod.snd

/-- Spec-side restatement: sum of a per-record integer reading over the
contributing devices. -/
def sumOver (devs : List DeviceCycle) (f : FieldRecord → Int) : Int :=
  ((contributing devs).map f).sum

/-- Active power read out of one record, absent-as-zero. -/
def activeOf (r : FieldRecord) : Int := intOr0 (r.lookup "ac_output_active_power_w")

/-- Apparent power read out of one record, absent-as-zero. -/
def apparentOf (r : FieldRecord) : Int := intOr0 (r.lookup "ac_output_apparent_power_va")

/-- PV power (both inputs) read out of one record, absent-as-zero. -/
def pvOf (r : FieldRecord) : Int :=
  intOr0 (r.lookup "pv_input_power_w") + intOr0 (r.lookup "pv2_input_power_w")

/-- Spec-side restatement: the truthy phase tag of a contributing device. -/
def truthyPhase (d : DeviceCycle) : Option String :=
  match d.1 with
  | some p => if p ≠ "" then some p else Option.none
  | Option.none => Option.none

/-- Spec-side restatement: the phase tags observed this cycle — the
truthy tags of devices whose snapshot succeeded. -/
def observedPhases (devs : List DeviceCycle) : List String :=
  (devs.filter (fun d => !d.2.isEmpty)).filterMap truthyPhase

/-- `k` is bound to `v` from a token that is present in `parts` at the
schema position declaring `k`, and that parses under the declared kind to
exactly `v`. -/
def boundFromToken (schema : List (String × Kind)) (parts : List String)
    (k : String) (v : Value) : Prop :=
  ∃ (i : Nat) (kind : Kind) (tok : String),
    schema[i]? = some (k, kind) ∧ parts[i]? = some tok ∧
    parseKind kind tok = some v

/-- The keys of the booleans derived from the packed status fields. -/
def statusFlagKeys : List String :=
  ["status_sbu_priority_added", "status_configuration_changed",
   "status_scc_fw_updated", "status_load_on",
   "status_batt_steady_while_charging", "status_charging_on",
   "status_scc_charging_on", "status_ac_charging_on",
   "status_charging_to_float", "status_switched_on"]

/-- QPIRI keys in token order. -/
def qpiriKeys : List String :=
  ["qpiri_ac_input_voltage_v", "qpiri_ac_input_current_a",
   "qpiri_ac_output_voltage_v", "qpiri_ac_output_frequency_hz",
   "qpiri_ac_output_current_a", "qpiri_ac_output_apparent_power_va",
   "qpiri_ac_output_active_power_w", "qpiri_battery_voltage_v",
   "qpiri_battery_recharge_voltage_v", "qpiri_battery_under_voltage_v",
   "qpiri_battery_bulk_charge_voltage_v", "qpiri_battery_float_charge_voltage_v"]

/-- Three devices tagged L1/L2/L3, each snapshot reporting 100 W active
output power. -/
def devsThreePhase : List DeviceCycle :=
  [(some "L1", [("ac_output_active_power_w", Value.int 100)]),
   (some "L2", [("ac_output_active_power_w", Value.int 100)]),
   (some "L3", [("ac_output_active_power_w", Value.int 100)])]

/-- The same fleet, but the L3 device's snapshot failed this cycle. -/
def devsTwoPhase : List DeviceCycle :=
  [(some "L1", [("ac_output_active_power_w", Value.int 100)]),
   (some "L2", [("ac_output_active_power_w", Value.int 100)]),
   (some "L3", [])]

/-! ## Supporting lemmas -/

/-- The reserved-byte adjustment leaves a byte alone or bumps it by one,
keeps it a byte, and never lands on a reserved value. -/
theorem adjustByte_spec (b : Nat) (hb : b ≤ 255) :
    (adjustByte b = b ∨ adjustByte b = b + 1) ∧ adjustByte b < 256 ∧
    ¬ (adjustByte b = 0x28 ∨ adjustByte b = 0x0D ∨ adjustByte b = 0x0A ∨
       adjustByte b = 0x00) := by
  unfold adjustByte
  split <;> rename_i hcond <;> omega

/-- Anything the positional decode loop binds comes from a token present
at that key's schema position that parses under the declared kind to the
bound value. -/
theorem decodeLoop_mem :
    ∀ (schema : List (String × Kind)) (parts : List String) (k : String) (v : Value),
      (k, v) ∈ decodeLoop schema parts → boundFromToken schema parts k v := by
  intro schema
  induction schema with
  | nil => intro parts k v h; simp [decodeLoop] at h
  | cons hd tl ih =>
    intro parts k v h
    cases parts with
    | nil => simp [decodeLoop] at h
    | cons p ps =>
      obtain ⟨kk, kind⟩ := hd
      simp only [decodeLoop] at h
      cases hp : parseKind kind p with
      | none =>
        rw [hp] at h
        obtain ⟨i, kind1, tok, h1, h2, h3⟩ := ih ps k v h
        exact ⟨i + 1, kind1, tok, by simpa using h1, by simpa using h2, h3⟩
      | some v0 =>
        rw [hp] at h
        rcases List.mem_cons.mp h with heq | hmem
        · obtain ⟨hk, hv⟩ := Prod.mk.injEq k v kk v0 ▸ heq
          exact ⟨0, kind, p, by simp [hk], by simp, by rw [hp, hv]⟩
        · obtain ⟨i, kind1, tok, h1, h2, h3⟩ := ih ps k v hmem
          exact ⟨i + 1, kind1, tok, by simpa using h1, by simpa using h2, h3⟩

/-- Every field the 8-character status decode derives is a boolean with a
status-flag key. -/
theorem statusFlags8_mem {bits : String} {k : String} {v : Value}
    (h : (k, v) ∈ statusFlags8 bits) : k ∈ statusFlagKeys ∧ ∃ b, v = Value.bool b := by
  unfold statusFlags8 at h
  split at h
  · simp only [List.mem_cons, List.not_mem_nil, or_false, Prod.mk.injEq] at h
    rcases h with e | e | e | e | e | e | e | e <;> obtain ⟨rfl, rfl⟩ := e <;>
      exact ⟨by simp [statusFlagKeys], _, rfl⟩
  · simp at h

/-- Every field the 3-character status decode derives is a boolean with a
status-flag key. -/
theorem statusFlags3_mem {bits : String} {k : String} {v : Value}
    (h : (k, v) ∈ statusFlags3 bits) : k ∈ statusFlagKeys ∧ ∃ b, v = Value.bool b := by
  unfold statusFlags3 at h
  split at h
  · simp only [List.mem_cons, List.not_mem_nil, or_false, Prod.mk.injEq] at h
    rcases h with ⟨rfl, rfl⟩ | ⟨rfl, rfl⟩ <;> exact ⟨by simp [statusFlagKeys], _, rfl⟩
  · simp at h

/-! ## Claim C2 -/

/-- C2: for every byte string input, `crc_pi` returns two bytes, each of
which equals the corresponding byte of the 16-entry nibble-table CRC-16
result (`crcRun`) or that byte plus one, and neither returned byte ever
equals 0x28, 0x0D, 0x0A, or 0x00. -/
theorem crc_pi_returns_adjusted_crc_bytes (data : List Nat)
    (h : ∀ c ∈ data, c < 256) :
    ((crc_pi data).1 = (crcRun data >>> 8) &&& 0xFF ∨
       (crc_pi data).1 = ((crcRun data >>> 8) &&& 0xFF) + 1) ∧
    ((crc_pi data).2 = crcRun data &&& 0xFF ∨
       (crc_pi data).2 = (crcRun data &&& 0xFF) + 1) ∧
    (crc_pi data).1 < 256 ∧ (crc_pi data).2 < 256 ∧
    ¬ ((crc_pi data).1 = 0x28 ∨ (crc_pi data).1 = 0x0D ∨
       (crc_pi data).1 = 0x0A ∨ (crc_pi data).1 = 0x00) ∧
    ¬ ((crc_pi data).2 = 0x28 ∨ (crc_pi data).2 = 0x0D ∨
       (crc_pi data).2 = 0x0A ∨ (crc_pi data).2 = 0x00) := by
  have hhi : (crcRun data >>> 8) &&& 0xFF ≤ 255 := Nat.and_le_right
  have hlo : crcRun data &&& 0xFF ≤ 255 := Nat.and_le_right
  have h1 := adjustByte_spec ((crcRun data >>> 8) &&& 0xFF) hhi
  have h2 := adjustByte_spec (crcRun data &&& 0xFF) hlo
  have hfst : (crc_pi data).1 = adjustByte ((crcRun data >>> 8) &&& 0xFF) := rfl
  have hsnd : (crc_pi data).2 = adjustByte (crcRun data &&& 0xFF) := rfl
  rw [hfst, hsnd]
  exact ⟨h1.1, h2.1, h1.2.1, h2.2.1, h1.2.2, h2.2.2⟩

/-- Witness for C2 at the byte string of the command `QPIGS`. -/
theorem crc_pi_returns_adjusted_crc_bytes_witness :
    ((crc_pi [0x51, 0x50, 0x49, 0x47, 0x53]).1 =
        (crcRun [0x51, 0x50, 0x49, 0x47, 0x53] >>> 8) &&& 0xFF ∨
       (crc_pi [0x51, 0x50, 0x49, 0x47, 0x53]).1 =
        ((crcRun [0x51, 0x50, 0x49, 0x47, 0x53] >>> 8) &&& 0xFF) + 1) ∧
    ((crc_pi [0x51, 0x50, 0x49, 0x47, 0x53]).2 =
        crcRun [0x51, 0x50, 0x49, 0x47, 0x53] &&& 0xFF ∨
       (crc_pi [0x51, 0x50, 0x49, 0x47, 0x53]).2 =
        (crcRun [0x51, 0x50, 0x49, 0x47, 0x53] &&& 0xFF) + 1) ∧
    (crc_pi [0x51, 0x50, 0x49, 0x47, 0x53]).1 < 256 ∧
    (crc_pi [0x51, 0x50, 0x49, 0x47, 0x53]).2 < 256 ∧
    ¬ ((crc_pi [0x51, 0x50, 0x49, 0x47, 0x53]).1 = 0x28 ∨
       (crc_pi [0x51, 0x50, 0x49, 0x47, 0x53]).1 = 0x0D ∨
       (crc_pi [0x51, 0x50, 0x49, 0x47, 0x53]).1 = 0x0A ∨
       (crc_pi [0x51, 0x50, 0x49, 0x47, 0x53]).1 = 0x00) ∧
    ¬ ((crc_pi [0x51, 0x50, 0x49, 0x47, 0x53]).2 = 0x28 ∨
       (crc_pi [0x51, 0x50, 0x49, 0x47, 0x53]).2 = 0x0D ∨
       (crc_pi [0x51, 0x50, 0x49, 0x47, 0x53]).2 = 0x0A ∨
       (crc_pi [0x51, 0x50, 0x49, 0x47, 0x53]).2 = 0x00) :=
  crc_pi_returns_adjusted_crc_bytes [0x51, 0x50, 0x49, 0x47, 0x53] (by decide)

/-- QPIRI's `f(i)` binds `None` exactly when the token fails to parse as
a float (or is absent). -/
theorem qpiriF_none_iff (tokens : List String) (i : Nat) :
    qpiriF tokens i = Value.none ↔ pyFloat (tokens.getD i "") = Option.none := by
  unfold qpiriF
  cases pyFloat (tokens.getD i "") <;> simp

/-- QPIRI's `iv(i)` binds `None` exactly when the token fails to parse as
a float (or is absent). -/
theorem qpiriIv_none_iff (tokens : List String) (i : Nat) :
    qpiriIv tokens i = Value.none ↔ pyFloat (tokens.getD i "") = Option.none := by
  unfold qpiriIv
  cases pyFloat (tokens.getD i "") <;> simp

/-- QPIGS omission discipline: every bound field either comes from a
present, successfully parsed token at its schema position, or is a
boolean derived from a packed status field. -/
theorem parse_qpigs_omission (line : String) (k : String) (v : Value)
    (h : (k, v) ∈ parse_qpigs line) :
    boundFromToken qpigsSchema (qpigsParts line) k v ∨
      (k ∈ statusFlagKeys ∧ ∃ b, v = Value.bool b) := by
  unfold parse_qpigs at h
  split at h
  · simp at h
  · rcases List.mem_append.mp h with h12 | h3
    · rcases List.mem_append.mp h12 with h0 | h8
      · exact Or.inl (decodeLoop_mem _ _ _ _ h0)
      · exact Or.inr (statusFlags8_mem h8)
    · exact Or.inr (statusFlags3_mem h3)

/-- QPIGS2 omission discipline: a field is bound only when at least three
tokens are present and its own token parses; the bound value is the
parsed value. -/
theorem parse_qpigs2_omission (line : String) (k : String) (v : Value)
    (h : (k, v) ∈ parse_qpigs2 line) :
    3 ≤ (qpigs2Parts line).length ∧
    ((k = "pv2_input_current_a" ∧
        ∃ q, pyFloat ((qpigs2Parts line).getD 0 "") = some q ∧ v = Value.float q) ∨
     (k = "pv2_input_voltage_v" ∧
        ∃ q, pyFloat ((qpigs2Parts line).getD 1 "") = some q ∧ v = Value.float q) ∨
     (k = "pv2_input_power_w" ∧
        ∃ q, pyFloat ((qpigs2Parts line).getD 2 "") = some q ∧ v = Value.int (ratTrunc q))) := by
  by_cases hout : line ≠ "" ∧ line.data.head? = some '('
  · by_cases hlen : 3 ≤ (qpigs2Parts line).length
    · unfold parse_qpigs2 at h
      rw [if_pos hout, if_pos hlen] at h
      refine ⟨hlen, ?_⟩
      rcases List.mem_append.mp h with h12 | hc
      · rcases List.mem_append.mp h12 with ha | hb
        · cases hp : pyFloat ((qpigs2Parts line).getD 0 "") with
          | none => rw [hp] at ha; simp at ha
          | some q =>
            rw [hp] at ha
            simp only [List.mem_cons, List.not_mem_nil, or_false, Prod.mk.injEq] at ha
            exact Or.inl ⟨ha.1, q, rfl, ha.2⟩
        · cases hp : pyFloat ((qpigs2Parts line).getD 1 "") with
          | none => rw [hp] at hb; simp at hb
          | some q =>
            rw [hp] at hb
            simp only [List.mem_cons, List.not_mem_nil, or_false, Prod.mk.injEq] at hb
            exact Or.inr (Or.inl ⟨hb.1, q, rfl, hb.2⟩)
      · cases hp : pyFloat ((qpigs2Parts line).getD 2 "") with
        | none => rw [hp] at hc; simp at hc
        | some q =>
          rw [hp] at hc
          simp only [Option.map_some', List.mem_cons, List.not_mem_nil, or_false,
            Prod.mk.injEq] at hc
          exact Or.inr (Or.inr ⟨hc.1, q, rfl, hc.2⟩)
    · simp [parse_qpigs2, hout, hlen] at h
  · simp [parse_qpigs2, hout] at h

/-- QMOD omission discipline: every bound field is a raw string (the code
or its mapped name); nothing is defaulted or null. -/
theorem parse_qmod_omission (line : String) (k : String) (v : Value)
    (h : (k, v) ∈ parse_qmod line) : ∃ s, v = Value.str s := by
  unfold parse_qmod at h
  split at h
  · simp at h
  · simp only [List.mem_cons, List.not_mem_nil, or_false, Prod.mk.injEq] at h
    rcases h with ⟨rfl, rfl⟩ | ⟨rfl, rfl⟩ <;> exact ⟨_, rfl⟩

/-- Q1 omission discipline: the four temperature fields and
`scc_charge_power_w` are always bound to `as_int(i) or 0` (so absent or
unparseable tokens default to 0); the sync frequency is bound only when
its token parses; the charge stage only when token 16 is present. -/
theorem parse_q1_omission (line : String) (k : String) (v : Value)
    (h : (k, v) ∈ parse_q1 line) :
    (k = "scc_pwm_temp_c" ∧ v = Value.int ((q1AsInt (tokenize line) 5).getD 0)) ∨
    (k = "inverter_temp_c" ∧ v = Value.int ((q1AsInt (tokenize line) 6).getD 0)) ∨
    (k = "battery_temp_c" ∧ v = Value.int ((q1AsInt (tokenize line) 7).getD 0)) ∨
    (k = "transformer_temp_c" ∧ v = Value.int ((q1AsInt (tokenize line) 8).getD 0)) ∨
    (k = "scc_charge_power_w" ∧ v = Value.int ((q1AsInt (tokenize line) 13).getD 0)) ∨
    (k = "sync_frequency_hz" ∧
       ∃ q, q1AsFloat (tokenize line) 15 = some q ∧ v = Value.float q) ∨
    (k = "charge_stage" ∧ 16 < (tokenize line).length ∧ ∃ s, v = Value.str s) := by
  unfold parse_q1 at h
  split at h
  · simp at h
  · rcases List.mem_append.mp h with h12 | hcs
    · rcases List.mem_append.mp h12 with h5 | hsync
      · simp only [List.mem_cons, List.not_mem_nil, or_false, Prod.mk.injEq] at h5
        rcases h5 with e | e | e | e | e <;> obtain ⟨rfl, rfl⟩ := e
        · exact Or.inl ⟨rfl, rfl⟩
        · exact Or.inr (Or.inl ⟨rfl, rfl⟩)
        · exact Or.inr (Or.inr (Or.inl ⟨rfl, rfl⟩))
        · exact Or.inr (Or.inr (Or.inr (Or.inl ⟨rfl, rfl⟩)))
        · exact Or.inr (Or.inr (Or.inr (Or.inr (Or.inl ⟨rfl, rfl⟩))))
      · cases hq : q1AsFloat (tokenize line) 15 with
        | none => rw [hq] at hsync; simp at hsync
        | some q =>
          rw [hq] at hsync
          simp only [List.mem_cons, List.not_mem_nil, or_false, Prod.mk.injEq] at hsync
          exact Or.inr (Or.inr (Or.inr (Or.inr (Or.inr (Or.inl
            ⟨hsync.1, q, rfl, hsync.2⟩)))))
    · split at hcs
      · simp only [List.mem_cons, List.not_mem_nil, or_false, Prod.mk.injEq] at hcs
        rename_i h16
        exact Or.inr (Or.inr (Or.inr (Or.inr (Or.inr (Or.inr
          ⟨hcs.1, h16, _, hcs.2⟩)))))
      · simp at hcs

set_option maxHeartbeats 800000 in
/-- QPIRI omission discipline (as the code actually behaves): fields are
bound only when at least 12 tokens are present, every bound field sits at
its declared position, and its value is `None` exactly when its token
fails to parse as a float. -/
theorem parse_qpiri_omission (line : String) (k : String) (v : Value)
    (h : (k, v) ∈ parse_qpiri line) :
    12 ≤ (tokenize line).length ∧
    ∃ i : Nat, qpiriKeys[i]? = some k ∧
      (v = qpiriF (tokenize line) i ∨ v = qpiriIv (tokenize line) i) ∧
      (v = Value.none ↔ pyFloat ((tokenize line).getD i "") = Option.none) := by
  unfold parse_qpiri at h
  split at h
  · simp at h
  · split at h
    · rename_i hlen
      refine ⟨hlen, ?_⟩
      simp only [List.mem_cons, List.not_mem_nil, or_false, Prod.mk.injEq] at h
      rcases h with e | e | e | e | e | e | e | e | e | e | e | e <;>
        obtain ⟨rfl, rfl⟩ := e
      · exact ⟨0, rfl, Or.inl rfl, qpiriF_none_iff _ 0⟩
      · exact ⟨1, rfl, Or.inl rfl, qpiriF_none_iff _ 1⟩
      · exact ⟨2, rfl, Or.inl rfl, qpiriF_none_iff _ 2⟩
      · exact ⟨3, rfl, Or.inl rfl, qpiriF_none_iff _ 3⟩
      · exact ⟨4, rfl, Or.inl rfl, qpiriF_none_iff _ 4⟩
      · exact ⟨5, rfl, Or.inr rfl, qpiriIv_none_iff _ 5⟩
      · exact ⟨6, rfl, Or.inr rfl, qpiriIv_none_iff _ 6⟩
      · exact ⟨7, rfl, Or.inl rfl, qpiriF_none_iff _ 7⟩
      · exact ⟨8, rfl, Or.inl rfl, qpiriF_none_iff _ 8⟩
      · exact ⟨9, rfl, Or.inl rfl, qpiriF_none_iff _ 9⟩
      · exact ⟨10, rfl, Or.inl rfl, qpiriF_none_iff _ 10⟩
      · exact ⟨11, rfl, Or.inl rfl, qpiriF_none_iff _ 11⟩
    · simp at h

/-! ## Claim C1 -/

/-- C1 counterexample: the claim as stated is false on two points.
QPIRI, given 12 tokens whose first token `X` fails to parse, binds
`qpiri_ac_input_voltage_v` to `None` instead of omitting it; and Q1,
given only 5 tokens (so token 13 is absent), still binds
`scc_charge_power_w` — a fifth defaulted field beyond the four
temperature fields the claim allows. -/
theorem c1_counterexample :
    ("qpiri_ac_input_voltage_v", Value.none) ∈
        parse_qpiri "(X 2 3 4 5 6 7 8 9 10 11 12)" ∧
    pyFloat ((tokenize "(X 2 3 4 5 6 7 8 9 10 11 12)").getD 0 "") = Option.none ∧
    ("scc_charge_power_w", Value.int 0) ∈ parse_q1 "(0 0 0 0 0)" ∧
    (tokenize "(0 0 0 0 0)").length ≤ 13 ∧
    "scc_charge_power_w" ∉ ["scc_pwm_temp_c", "inverter_temp_c",
      "battery_temp_c", "transformer_temp_c"] := by
  refine ⟨by decide, by decide, by decide, by decide, by decide⟩

/-- C1 (amended): for every decoder and input line, a produced field
either comes from a present token that parses under its declared kind, or
falls under one of the actual exceptions: QPIGS's derived status
booleans; Q1's four temperature fields AND `scc_charge_power_w`, which
are always bound and default to 0; and QPIRI's twelve fields, which (once
12 tokens are present) are bound to `None` exactly when their token fails
to parse as a float. -/
theorem c1_decoder_omission_discipline :
    (∀ (line k : String) (v : Value), (k, v) ∈ parse_qpigs line →
       boundFromToken qpigsSchema (qpigsParts line) k v ∨
         (k ∈ statusFlagKeys ∧ ∃ b, v = Value.bool b)) ∧
    (∀ (line k : String) (v : Value), (k, v) ∈ parse_qpigs2 line →
       3 ≤ (qpigs2Parts line).length ∧
       ((k = "pv2_input_current_a" ∧
           ∃ q, pyFloat ((qpigs2Parts line).getD 0 "") = some q ∧ v = Value.float q) ∨
        (k = "pv2_input_voltage_v" ∧
           ∃ q, pyFloat ((qpigs2Parts line).getD 1 "") = some q ∧ v = Value.float q) ∨
        (k = "pv2_input_power_w" ∧
           ∃ q, pyFloat ((qpigs2Parts line).getD 2 "") = some q ∧
             v = Value.int (ratTrunc q)))) ∧
    (∀ (line k : String) (v : Value), (k, v) ∈ parse_qmod line →
       ∃ s, v = Value.str s) ∧
    (∀ (line k : String) (v : Value), (k, v) ∈ parse_q1 line →
       (k = "scc_pwm_temp_c" ∧ v = Value.int ((q1AsInt (tokenize line) 5).getD 0)) ∨
       (k = "inverter_temp_c" ∧ v = Value.int ((q1AsInt (tokenize line) 6).getD 0)) ∨
       (k = "battery_temp_c" ∧ v = Value.int ((q1AsInt (tokenize line) 7).getD 0)) ∨
       (k = "transformer_temp_c" ∧ v = Value.int ((q1AsInt (tokenize line) 8).getD 0)) ∨
       (k = "scc_charge_power_w" ∧ v = Value.int ((q1AsInt (tokenize line) 13).getD 0)) ∨
       (k = "sync_frequency_hz" ∧
          ∃ q, q1AsFloat (tokenize line) 15 = some q ∧ v = Value.float q) ∨
       (k = "charge_stage" ∧ 16 < (tokenize line).length ∧ ∃ s, v = Value.str s)) ∧
    (∀ (line k : String) (v : Value), (k, v) ∈ parse_qpiri line →
       12 ≤ (tokenize line).length ∧
       ∃ i : Nat, qpiriKeys[i]? = some k ∧
         (v = qpiriF (tokenize line) i ∨ v = qpiriIv (tokenize line) i) ∧
         (v = Value.none ↔ pyFloat ((tokenize line).getD i "") = Option.none)) :=
  ⟨parse_qpigs_omission, parse_qpigs2_omission, parse_qmod_omission,
   parse_q1_omission, parse_qpiri_omission⟩

/-- Witness for C1 (amended): the QMOD decode of `(L)` binds the raw
mode code as a string. -/
theorem c1_decoder_omission_discipline_witness :
    ∃ s, Value.str "L" = Value.str s :=
  c1_decoder_omission_discipline.2.2.1 "(L)" "inverter_mode_code"
    (Value.str "L") (by decide)

/-! ## Claim C3 -/

/-- A cons step of the spec-side sums: a device with an empty snapshot
contributes nothing, any other device contributes its reading. -/
theorem sumOver_cons (d : DeviceCycle) (ds : List DeviceCycle)
    (f : FieldRecord → Int) :
    sumOver (d :: ds) f = (if d.2.isEmpty then 0 else f d.2) + sumOver ds f := by
  by_cases hd : d.2 = [] <;>
    simp [sumOver, contributing, List.filter_cons, hd]

/-- The three integer accumulators of the aggregation loop compute the
spec-side sums over contributing devices, for any starting state. -/
theorem aggFold_sums :
    ∀ (devs : List DeviceCycle) (st : Int × Int × Int × List String),
      (devs.foldl aggStep st).1 = st.1 + sumOver devs activeOf ∧
      (devs.foldl aggStep st).2.1 = st.2.1 + sumOver devs apparentOf ∧
      (devs.foldl aggStep st).2.2.1 = st.2.2.1 + sumOver devs pvOf := by
  intro devs
  induction devs with
  | nil => intro st; simp [sumOver, contributing]
  | cons d ds ih =>
    intro st
    rw [List.foldl_cons]
    by_cases hd : d.2 = []
    · have hstep : aggStep st d = st := by simp [aggStep, hd]
      rw [hstep]
      obtain ⟨ha, hap, hpv⟩ := ih st
      refine ⟨?_, ?_, ?_⟩ <;> rw [sumOver_cons] <;> simp [hd]
      · exact ha
      · exact hap
      · exact hpv
    · obtain ⟨ha, hap, hpv⟩ := ih (aggStep st d)
      have h1 : (aggStep st d).1 = st.1 + activeOf d.2 := by
        simp [aggStep, hd, activeOf]
      have h2 : (aggStep st d).2.1 = st.2.1 + apparentOf d.2 := by
        simp [aggStep, hd, apparentOf]
      have h3 : (aggStep st d).2.2.1 = st.2.2.1 + pvOf d.2 := by
        simp [aggStep, hd, pvOf]
      have hne : d.2.isEmpty = false := by
        cases hc : d.2 with
        | nil => exact absurd hc hd
        | cons a l => rfl
      refine ⟨?_, ?_, ?_⟩ <;> rw [sumOver_cons, hne] <;> simp
      · rw [ha, h1]; omega
      · rw [hap, h2]; omega
      · rw [hpv, h3]; omega

/-- The phase accumulator of the aggregation loop collects exactly the
observed phase tags (plus whatever was in the starting state). -/
theorem aggFold_phases_mem :
    ∀ (devs : List DeviceCycle) (st : Int × Int × Int × List String) (p : String),
      p ∈ (devs.foldl aggStep st).2.2.2 ↔ p ∈ st.2.2.2 ∨ p ∈ observedPhases devs := by
  intro devs
  induction devs with
  | nil => intro st p; simp [observedPhases]
  | cons d ds ih =>
    intro st p
    rw [List.foldl_cons, ih]
    by_cases hd : d.2 = []
    · have hstep : aggStep st d = st := by simp [aggStep, hd]
      have hobs : observedPhases (d :: ds) = observedPhases ds := by
        simp [observedPhases, List.filter_cons, hd]
      rw [hstep, hobs]
    · cases hph : d.1 with
      | none =>
        have hstep : (aggStep st d).2.2.2 = st.2.2.2 := by simp [aggStep, hd, hph]
        have hobs : observedPhases (d :: ds) = observedPhases ds := by
          have hne : d.2.isEmpty = false := by
            cases hc : d.2 with
            | nil => exact absurd hc hd
            | cons a l => rfl
          simp [observedPhases, List.filter_cons, hne, List.filterMap_cons,
            truthyPhase, hph]
        rw [hstep, hobs]
      | some q =>
        have hne : d.2.isEmpty = false := by
          cases hc : d.2 with
          | nil => exact absurd hc hd
          | cons a l => rfl
        by_cases hq : q = ""
        · have hstep : (aggStep st d).2.2.2 = st.2.2.2 := by
            simp [aggStep, hd, hph, hq]
          have hobs : observedPhases (d :: ds) = observedPhases ds := by
            simp [observedPhases, List.filter_cons, hne, List.filterMap_cons,
              truthyPhase, hph, hq]
          rw [hstep, hobs]
        · have hstep : (aggStep st d).2.2.2 = st.2.2.2.insert q := by
            simp [aggStep, hd, hph, hq]
          have hobs : observedPhases (d :: ds) = q :: observedPhases ds := by
            simp [observedPhases, List.filter_cons, hne, List.filterMap_cons,
              truthyPhase, hph, hq]
          rw [hstep, hobs]
          simp only [List.mem_insert_iff, List.mem_cons]
          tauto

/-- C3: the aggregate is emitted only when phase grouping is configured
(and MQTT connected) and the observed phase tags cover L1, L2 and L3; its
totals are the absent-as-zero sums of `ac_output_active_power_w`,
`ac_output_apparent_power_va` and `pv_input_power_w + pv2_input_power_w`
over the devices whose snapshot succeeded this cycle.  Concretely, three
devices tagged L1/L2/L3 each reporting 100 W yield a total of 300 W, and
with only L1 and L2 reporting no aggregate is emitted. -/
theorem c3_phase_aggregation :
    (∀ (g c : Bool) (devs : List DeviceCycle) (r : FieldRecord),
        aggregateCycle g c devs = some r →
        g = true ∧ c = true ∧
        (∀ p ∈ phasesL123, p ∈ observedPhases devs) ∧
        r.lookup "total_active_power_w" = some (.int (sumOver devs activeOf)) ∧
        r.lookup "total_apparent_power_va" = some (.int (sumOver devs apparentOf)) ∧
        r.lookup "total_pv_power_w" = some (.int (sumOver devs pvOf))) ∧
    (aggregateCycle true true devsThreePhase).bind
        (fun r => r.lookup "total_active_power_w") = some (.int 300) ∧
    aggregateCycle true true devsTwoPhase = Option.none := by
  refine ⟨?_, by decide, by decide⟩
  intro g c devs r h
  unfold aggregateCycle at h
  split at h
  · rename_i hcond
    simp only [Bool.and_eq_true] at hcond
    obtain ⟨⟨hg, hall⟩, hc⟩ := hcond
    injection h with h
    obtain ⟨ha, hap, hpv⟩ := aggFold_sums devs (0, 0, 0, [])
    refine ⟨hg, hc, ?_, ?_, ?_, ?_⟩
    · intro p hp
      have hcont := List.all_eq_true.mp hall p hp
      have hm : p ∈ (aggFold devs).2.2.2 := by simpa using hcont
      have := (aggFold_phases_mem devs (0, 0, 0, []) p).mp hm
      simpa using this
    · rw [← h]
      have hx : (aggFold devs).1 = sumOver devs activeOf := by
        simpa [aggFold] using ha
      rw [hx]; rfl
    · rw [← h]
      have hx : (aggFold devs).2.1 = sumOver devs apparentOf := by
        simpa [aggFold] using hap
      rw [hx]; rfl
    · rw [← h]
      have hx : (aggFold devs).2.2.1 = sumOver devs pvOf := by
        simpa [aggFold] using hpv
      rw [hx]; rfl
  · exact absurd h (by simp)

/-- Witness for C3 at the three-device L1/L2/L3 fleet, each snapshot
reporting 100 W: the emitted total is the spec-side sum. -/
theorem c3_phase_aggregation_witness :
    ([("total_active_power_w", Value.int 300),
      ("total_apparent_power_va", Value.int 0),
      ("total_pv_power_w", Value.int 0),
      ("phases", Value.str "L1,L2,L3")] : FieldRecord).lookup "total_active_power_w"
      = some (.int (sumOver devsThreePhase activeOf)) :=
  (c3_phase_aggregation.1 true true devsThreePhase
    [("total_active_power_w", Value.int 300),
     ("total_apparent_power_va", Value.int 0),
     ("total_pv_power_w", Value.int 0),
     ("phases", Value.str "L1,L2,L3")] (by decide)).2.2.2.1

end Easun
